import Mathlib

/-!
Verification of the lovia backend's project/plan request handlers and HTTP
shell, shallowly embedded from the JavaScript source (the projects controller
and `app.js`).  Request bodies, ORM row fields and response bodies are
modelled as JavaScript values; the persistence layer is modelled as an
explicit database state threaded through each handler.
-/

namespace Lovia

/-- JavaScript values as they occur in parsed JSON request bodies, ORM rows
and JSON responses.  `undefined` models JavaScript `undefined` (in particular the
result of reading an absent object key), `nan` the number NaN.  Numbers are
modelled as integers: the handlers under verification only compare, store and
coerce them, so fractional values are outside the modelled value range. -/
inductive JVal where
  | undefined : JVal
  | null : JVal
  | nan : JVal
  | bool : Bool → JVal
  | num : Int → JVal
  | str : String → JVal
  | arr : List JVal → JVal
  | obj : List (String × JVal) → JVal
deriving Inhabited

namespace JVal

/-- Property read `v[k]` as the handlers use it on request bodies: an absent
key, or a non-object receiver, yields `undefined`. -/
def get (v : JVal) (k : String) : JVal :=
  match v with
  | .obj fs => match fs.lookup k with
    | some w => w
    | none => .undefined
  | _ => .undefined

/-- JavaScript truthiness: `undefined`, `null`, `NaN`, `false`, `0` and the
empty string are falsy; every other value (any array or object included) is
truthy. -/
def truthy : JVal → Bool
  | .undefined => false
  | .null => false
  | .nan => false
  | .bool b => b
  | .num n => n != 0
  | .str s => s != ""
  | .arr _ => true
  | .obj _ => true

/-- Whether the value is JavaScript `undefined` (the `!== undefined` tests). -/
def isUndefined : JVal → Bool
  | .undefined => true
  | _ => false

/-- Whether an object value carries the given key. -/
def hasKey (v : JVal) (k : String) : Bool :=
  match v with
  | .obj fs => fs.any (fun f => f.1 == k)
  | _ => false

/-- Whether the value is `undefined` or `null` (the values on which object
destructuring throws a TypeError). -/
def isNullish : JVal → Bool
  | .undefined => true
  | .null => true
  | _ => false

/-- Whether the value is the number `m` (an integer-column match in a
repository filter such as `findOneBy on id`). -/
def eqNum (v : JVal) (m : Nat) : Bool :=
  match v with
  | .num n => n == (m : Int)
  | _ => false

/-- `Array.isArray`. -/
def isArray : JVal → Bool
  | .arr _ => true
  | _ => false

/-- The keys of an object value, in order. -/
def keys : JVal → List String
  | .obj fs => fs.map Prod.fst
  | _ => []

end JVal

/-- Value of a nonempty all-digit character list, `none` otherwise. -/
def decDigits (cs : List Char) : Option Nat :=
  if cs ≠ [] ∧ cs.all (·.isDigit) then
    some (cs.foldl (fun a c => a * 10 + (c.toNat - 48)) 0)
  else none

/-- The characters of `s` with surrounding whitespace removed (the trimming
JavaScript's string-to-number conversions perform). -/
def jsTrim (s : String) : List Char :=
  ((s.toList.dropWhile Char.isWhitespace).reverse.dropWhile Char.isWhitespace).reverse

/-- `Number(s)` on a string: trim, the empty string is 0, otherwise an
optionally signed run of decimal digits; anything else is NaN (`none`).
Fractional, exponent and hexadecimal literals are outside the modelled
value range. -/
def parseNumStr (s : String) : Option Int :=
  match jsTrim s with
  | [] => some 0
  | '-' :: cs => (decDigits cs).map (fun n => -(n : Int))
  | '+' :: cs => (decDigits cs).map (fun n => (n : Int))
  | cs => (decDigits cs).map (fun n => (n : Int))

/-- JavaScript `Number(v)` coercion as used by the update handler:
`undefined` is NaN, `null`/`false`/`true` are 0/0/1, numbers are themselves,
strings parse as decimal integers or NaN, the empty array is 0 and a
one-element numeric array coerces through its string form; other arrays and
all plain objects are NaN. -/
def toNumber : JVal → JVal
  | .undefined => .nan
  | .null => .num 0
  | .nan => .nan
  | .bool b => .num (if b then 1 else 0)
  | .num n => .num n
  | .str s => match parseNumStr s with
    | some n => .num n
    | none => .nan
  | .arr [] => .num 0
  | .arr [.num n] => .num n
  | .arr _ => .nan
  | .obj _ => .nan

/-- `parseInt(s, 10)`: trim, optional sign, then the longest leading run of
decimal digits; `none` models NaN (no digits at all). -/
def parseIntJs (s : String) : Option Int :=
  let run : List Char → Option Nat := fun cs =>
    let ds := cs.takeWhile (·.isDigit)
    if ds = [] then none
    else some (ds.foldl (fun a c => a * 10 + (c.toNat - 48)) 0)
  match jsTrim s with
  | '-' :: cs => (run cs).map (fun n => -(n : Int))
  | '+' :: cs => (run cs).map (fun n => (n : Int))
  | cs => (run cs).map (fun n => (n : Int))

/-- A JavaScript error object as seen by the Express error middleware: its
`status` and `message` properties, each an arbitrary JavaScript value
(`undefined` when the property was never attached). -/
structure ErrObj where
  status : JVal
  message : JVal

/-- Modelled from the spec: `utils/appError` (required by the controllers but
not part of the analyzed sources) builds a tagged error that "forwards a
tagged error (status + message)" to the centralized handler — an error object
carrying the given numeric status and the given message value. -/
def appError (code : Nat) (msg : JVal) : ErrObj :=
  { status := .num code, message := msg }

/-- The centralized error middleware of `app.js`: a falsy `err` (modelled as
`none`) is replaced by a fresh error with message 未知錯誤; the HTTP status is
`err.status or 500` (JavaScript truthiness), the envelope status string is
error exactly when that code is strictly equal to the number 500 and failed
otherwise, and the message is `err.message or 伺服器錯誤`.  The result is the
triple (HTTP status value, envelope status string, envelope message). -/
def errorHandler (e : Option ErrObj) : JVal × JVal × JVal :=
  let err := match e with
    | some err => err
    | none => { status := .undefined, message := .str "未知錯誤" }
  let statusCode := if err.status.truthy then err.status else .num 500
  (statusCode,
   if statusCode.eqNum 500 then .str "error" else .str "failed",
   if err.message.truthy then err.message else .str "伺服器錯誤")

/-- The 404 middleware of `app.js`: any request reaching it — whatever its
method and path — receives status 404 with the fixed error envelope. -/
def notFoundHandler (method : String) (path : String) : Nat × JVal :=
  (404, .obj [("status", .str "error"), ("message", .str "無此路由")])

/-- The outcome of running a handler: either a direct response
(`res.status(code).json(body)`) or an error forwarded with `next(err)`. -/
inductive Outcome where
  | ok : Nat → JVal → Outcome
  | fail : ErrObj → Outcome

/-- Final response the client observes: a direct response is served as-is;
a forwarded error is formatted by the centralized error middleware into the
uniform envelope.  Returns (HTTP status value, response body). -/
def serve (o : Outcome) : JVal × JVal :=
  match o with
  | .ok code body => (.num code, body)
  | .fail e =>
    let (code, st, msg) := errorHandler (some e)
    (code, .obj [("status", st), ("message", msg)])

/-- A row of the Users repository (only the primary key matters to the
verified handlers). -/
structure UserRec where
  id : Nat

/-- A row of the Categories repository. -/
structure CategoryRec where
  id : Nat

/-- A row of the Projects repository.  `user_id` is the owner foreign-key
column used by the update handler's lookup filter; `owner` is the id of the
user row loaded through the `user` relation (equal to `user_id` whenever the
store is consistent, but the code reads both, so they are kept separate).
`category` is the id of the related category row.  The remaining columns hold
the JavaScript values the handlers stored. -/
structure ProjectRec where
  id : Nat
  user_id : Nat
  owner : Nat
  category : Nat
  title : JVal
  summary : JVal
  total_amount : JVal
  start_time : JVal
  end_time : JVal
  cover : JVal
  full_content : JVal
  project_team : JVal
  faq : JVal

/-- A row of the ProjectPlans repository; `plan_id` is the primary key and
`project_id` the owning project's foreign key. -/
structure PlanRec where
  plan_id : Nat
  project_id : Nat
  plan_name : JVal
  amount : JVal
  quantity : JVal
  feedback : JVal
  feedback_img : JVal
  delivery_date : JVal

/-- The persistence layer: the four repositories, plus the next primary keys
the store will assign on insert. -/
structure DB where
  users : List UserRec
  categories : List CategoryRec
  projects : List ProjectRec
  plans : List PlanRec
  nextProjectId : Nat
  nextPlanId : Nat

/-- `projectRepo.findOneBy on id` with an already-parsed id (`none` is NaN,
which matches no row). -/
def findProjectById (db : DB) (pid : Option Int) : Option ProjectRec :=
  db.projects.find? (fun p => pid == some (p.id : Int))

/-- The update handler's lookup, `findOne where id and user_id`: the first
project row matching both the parsed path id and the requesting user's id. -/
def findProjectByIdAndUser (db : DB) (pid : Option Int) (uid : Nat) :
    Option ProjectRec :=
  db.projects.find? (fun p => pid == some (p.id : Int) && p.user_id == uid)

/-- The plans loaded through the `projectPlans` relation / deleted by the
update handler's filter: all plan rows owned by the project. -/
def plansOf (db : DB) (pid : Nat) : List PlanRec :=
  db.plans.filter (fun pl => pl.project_id == pid)

/-- `projectRepo.save(project)` on an existing entity: every stored row with
the entity's primary key is replaced by the entity. -/
def saveProject (db : DB) (p : ProjectRec) : DB :=
  { db with projects := db.projects.map (fun q => if q.id == p.id then p else q) }

/-- Result of the authorization-header and `jwt.verify` stage of
`createProject`: no bearer token, a token that fails verification, or a
verified token whose payload decodes to the given user id. -/
inductive TokenState where
  | missing : TokenState
  | invalid : TokenState
  | valid : Nat → TokenState

/-- The ten required fields of `createProject`, in declaration order. -/
def requiredFields : List String :=
  ["title", "summary", "category_id", "total_amount", "start_time",
   "end_time", "cover", "full_content", "project_team", "faq"]

/-- `checkMissingProjectFields`: the required fields kept by
`filter (field => !body[field])` — i.e. those whose value in the body is
falsy (an absent key reads as `undefined`, which is falsy). -/
def checkMissingProjectFields (body : JVal) : List String :=
  requiredFields.filter (fun f => !(body.get f).truthy)

/-- The 400 response body `createProject` sends when
`checkMissingProjectFields` is nonempty: status false and a message joining
the reported field names with a comma. -/
def missingFieldsResponse (body : JVal) : JVal :=
  .obj [("status", .bool false),
        ("message", .str ("缺少必要欄位: " ++
          String.intercalate ", " (checkMissingProjectFields body)))]

/-- `createProject`: reject on reported missing fields (400), then on the
token (401 for absent or unverifiable), then resolve the user and the
category (forwarded 400 errors), then insert one project row owned by the
resolved user and linked to the resolved category, answering 200 with the
new project id.  Returns the outcome together with the resulting store. -/
def createProject (db : DB) (body : JVal) (tok : TokenState) : Outcome × DB :=
  if (checkMissingProjectFields body).length > 0 then
    (.ok 400 (missingFieldsResponse body), db)
  else match tok with
  | .missing =>
    (.ok 401 (.obj [("status", .bool false), ("message", .str "未提供有效的 token")]), db)
  | .invalid =>
    (.ok 401 (.obj [("status", .bool false), ("message", .str "無效的 token")]), db)
  | .valid uid =>
    match db.users.find? (fun u => u.id == uid) with
    | none => (.fail (appError 400 (.str "找不到對應的使用者")), db)
    | some user =>
      match db.categories.find? (fun c => (body.get "category_id").eqNum c.id) with
      | none => (.fail (appError 400 (.str "無效的 category")), db)
      | some cat =>
        let newProject : ProjectRec :=
          { id := db.nextProjectId
            user_id := user.id
            owner := user.id
            category := cat.id
            title := body.get "title"
            summary := body.get "summary"
            total_amount := body.get "total_amount"
            start_time := body.get "start_time"
            end_time := body.get "end_time"
            cover := body.get "cover"
            full_content := body.get "full_content"
            project_team := body.get "project_team"
            faq := body.get "faq" }
        let db2 := { db with projects := db.projects ++ [newProject],
                             nextProjectId := db.nextProjectId + 1 }
        (.ok 200 (.obj [("status", .bool true), ("message", .str "專案建立成功"),
                        ("data", .obj [("project_id", .num newProject.id)])]), db2)

/-- The message of the TypeError raised when `createProjectPlan` destructures
`req.body.plans` and that value is `undefined` or `null` (the exact wording
is runtime-generated; only that it is a truthy string matters). -/
def destructureTypeError : JVal :=
  .str "Cannot destructure property plan_name of req.body.plans"

/-- Serialization of a plan entity as `createProjectPlan` answers it (the
entity after save, its generated key included; the `project` relation is
abbreviated to its foreign key). -/
def planToJson (pl : PlanRec) : JVal :=
  .obj [("plan_id", .num pl.plan_id), ("plan_name", pl.plan_name),
        ("amount", pl.amount), ("quantity", pl.quantity),
        ("feedback", pl.feedback), ("feedback_img", pl.feedback_img),
        ("delivery_date", pl.delivery_date), ("project_id", .num pl.project_id)]

/-- `createProjectPlan`: destructure the nested `plans` object first (a
`undefined`/`null` value throws, caught and forwarded as a 500 error), then
require the project to exist (404 otherwise), then insert one plan row linked
to the project and answer 201 with the created plan. -/
def createProjectPlan (db : DB) (idStr : String) (body : JVal) : Outcome × DB :=
  let projectId := parseIntJs idStr
  let plansVal := body.get "plans"
  if plansVal.isNullish then
    (.fail (appError 500 destructureTypeError), db)
  else
    match findProjectById db projectId with
    | none => (.ok 404 (.obj [("status", .bool false), ("message", .str "找不到專案")]), db)
    | some project =>
      let newPlan : PlanRec :=
        { plan_id := db.nextPlanId
          project_id := project.id
          plan_name := plansVal.get "plan_name"
          amount := plansVal.get "amount"
          quantity := plansVal.get "quantity"
          feedback := plansVal.get "feedback"
          feedback_img := plansVal.get "feedback_img"
          delivery_date := plansVal.get "delivery_date" }
      let db2 := { db with plans := db.plans ++ [newPlan],
                           nextPlanId := db.nextPlanId + 1 }
      (.ok 201 (.obj [("status", .bool true), ("message", .str "回饋方案建立成功"),
                      ("data", planToJson newPlan)]), db2)

/-- The display shape `getProject` maps each plan to: exactly the six display
fields, no plan identifier. -/
def shapePlan (pl : PlanRec) : JVal :=
  .obj [("plan_name", pl.plan_name), ("amount", pl.amount),
        ("quantity", pl.quantity), ("feedback", pl.feedback),
        ("feedback_img", pl.feedback_img), ("delivery_date", pl.delivery_date)]

/-- The order the comparator `(a, b) => a.plan_id - b.plan_id` sorts by:
ascending plan id. -/
def planLe (a b : PlanRec) : Prop := a.plan_id ≤ b.plan_id

instance : DecidableRel planLe := fun a b => Nat.decLe a.plan_id b.plan_id

instance : IsTotal PlanRec planLe := ⟨fun a b => Nat.le_total a.plan_id b.plan_id⟩

instance : IsTrans PlanRec planLe := ⟨fun _ _ _ h h2 => Nat.le_trans h h2⟩

/-- The `responseData` object of `getProject`: the project's scalar columns
(the category relation is not loaded by this query, so it serializes as
undefined), `faq or empty-array`, and the shaped plans. -/
def projectView (p : ProjectRec) (sorted : List PlanRec) : JVal :=
  .obj [("title", p.title), ("summary", p.summary), ("category", .undefined),
        ("total_amount", p.total_amount), ("start_time", p.start_time),
        ("end_time", p.end_time), ("cover", p.cover),
        ("full_content", p.full_content), ("project_team", p.project_team),
        ("faq", if p.faq.truthy then p.faq else .arr []),
        ("plans", .arr (sorted.map shapePlan))]

/-- `getProject`: load the project with its plans, 404 if missing, otherwise
sort the plans ascending by plan id and answer 200 with the shaped view.
Read-only, so no store is returned. -/
def getProject (db : DB) (pidStr : String) : Outcome :=
  let projectId := parseIntJs pidStr
  match findProjectById db projectId with
  | none => .fail (appError 404 (.str "無此專案"))
  | some project =>
    let sortedPlans := List.insertionSort planLe (plansOf db project.id)
    .ok 200 (.obj [("status", .bool true), ("data", projectView project sortedPlans)])

/-- The conditional scalar-field updates of `updateProject`: each of the nine
scalar columns is overwritten exactly when the destructured body value is not
`undefined`; `total_amount` additionally passes through `Number(...)`.
`category_id` is destructured by the handler but never assigned, so `id`,
`user_id`, `owner` and `category` are untouched. -/
def scalarUpdate (p : ProjectRec) (body : JVal) : ProjectRec :=
  let pick : String → JVal → JVal := fun k old =>
    let v := body.get k
    if v.isUndefined then old else v
  let vta := body.get "total_amount"
  { p with
    title := pick "title" p.title
    summary := pick "summary" p.summary
    total_amount := if vta.isUndefined then p.total_amount else toNumber vta
    start_time := pick "start_time" p.start_time
    end_time := pick "end_time" p.end_time
    cover := pick "cover" p.cover
    full_content := pick "full_content" p.full_content
    project_team := pick "project_team" p.project_team
    faq := pick "faq" p.faq }

/-- One replacement plan row built by `updateProject` from an element of the
provided plans array: `Number(amount)`, `quantity` coerced when truthy and 0
otherwise, the remaining fields copied, the row linked to the project. -/
def mkUpdatedPlan (proj : ProjectRec) (pv : JVal) (pid : Nat) : PlanRec :=
  { plan_id := pid
    project_id := proj.id
    plan_name := pv.get "plan_name"
    amount := toNumber (pv.get "amount")
    quantity := if (pv.get "quantity").truthy then toNumber (pv.get "quantity") else .num 0
    feedback := pv.get "feedback"
    feedback_img := pv.get "feedback_img"
    delivery_date := pv.get "delivery_date" }

/-- The replacement plan rows for the whole provided array, with primary keys
assigned consecutively by the store starting at `n`. -/
def buildPlans (proj : ProjectRec) : List JVal → Nat → List PlanRec
  | [], _ => []
  | pv :: rest, n => mkUpdatedPlan proj pv n :: buildPlans proj rest (n + 1)

/-- `updateProject`: look the project up under the filter id-and-owner-column
(forwarded 400 when absent), compare the related owner against the requester
(forwarded 403 on mismatch), apply the conditional scalar updates, and — when
the body's `plans` value is an array — delete every plan row of the project
and insert one replacement row per array element before saving the project
and answering 200 with its id.  `planSaveErr` models the persistence layer at
the plan-insert call: `some e` means that save throws `e`, which the handler
catches and forwards, leaving the deletion done but neither the new plans nor
the project saved. -/
def updateProject (db : DB) (uid : Nat) (pidStr : String) (body : JVal)
    (planSaveErr : Option ErrObj) : Outcome × DB :=
  let projectId := parseIntJs pidStr
  match findProjectByIdAndUser db projectId uid with
  | none => (.fail (appError 400 (.str "找不到提案")), db)
  | some project =>
    if project.owner != uid then
      (.fail (appError 403 (.str "你沒有修改此提案的權限")), db)
    else
      let updated := scalarUpdate project body
      match body.get "plans" with
      | .arr ps =>
        let kept := db.plans.filter (fun pl => !(projectId == some (pl.project_id : Int)))
        let db1 := { db with plans := kept }
        let newPlans := buildPlans project ps db1.nextPlanId
        match planSaveErr with
        | some e => (.fail e, db1)
        | none =>
          let db2 := { db1 with plans := db1.plans ++ newPlans,
                                nextPlanId := db1.nextPlanId + ps.length }
          let db3 := saveProject db2 updated
          (.ok 200 (.obj [("status", .bool true),
                          ("data", .obj [("project_id", .num updated.id)])]), db3)
      | _ =>
        let db3 := saveProject db updated
        (.ok 200 (.obj [("status", .bool true),
                        ("data", .obj [("project_id", .num updated.id)])]), db3)

/-- A concrete plan row of project 1 (primary key 7). -/
def planA : PlanRec :=
  { plan_id := 7
    project_id := 1
    plan_name := .str "early bird"
    amount := .num 100
    quantity := .num 2
    feedback := .str "thanks"
    feedback_img := .null
    delivery_date := .str "2025-01-01" }

/-- A second concrete plan row of project 1 (primary key 3, stored after
`planA`, so the stored order is not the ascending-id order). -/
def planB : PlanRec :=
  { plan_id := 3
    project_id := 1
    plan_name := .str "basic"
    amount := .num 50
    quantity := .num 0
    feedback := .str "card"
    feedback_img := .undefined
    delivery_date := .str "2025-02-01" }

/-- A concrete project row: id 1, owned by user 1 (consistently in both the
`user_id` column and the loaded relation), category 3, `faq` never stored. -/
def proj1 : ProjectRec :=
  { id := 1
    user_id := 1
    owner := 1
    category := 3
    title := .str "t"
    summary := .str "s"
    total_amount := .num 1000
    start_time := .str "2024-01-01"
    end_time := .str "2024-12-31"
    cover := .str "c"
    full_content := .str "fc"
    project_team := .str "pt"
    faq := .undefined }

/-- A concrete store: users 1 and 2, category 3, project 1 owned by user 1
with the two plans above. -/
def db1 : DB :=
  { users := [⟨1⟩, ⟨2⟩]
    categories := [⟨3⟩]
    projects := [proj1]
    plans := [planA, planB]
    nextProjectId := 2
    nextPlanId := 8 }

/-- A creation body carrying all ten required keys, with `total_amount`
present but equal to the number 0 (a falsy value). -/
def bodyAllPresentZero : JVal :=
  .obj [("title", .str "t"), ("summary", .str "s"), ("category_id", .num 3),
        ("total_amount", .num 0), ("start_time", .str "a"),
        ("end_time", .str "b"), ("cover", .str "c"), ("full_content", .str "d"),
        ("project_team", .str "e"), ("faq", .str "f")]

/-- The plans array of `plansBody`: two new plans, the second of which omits
`quantity`. -/
def plansArr : List JVal :=
  [.obj [("plan_name", .str "p1"), ("amount", .str "500"), ("quantity", .num 3)],
   .obj [("plan_name", .str "p2"), ("amount", .num 80)]]

/-- An update body that replaces the plans with `plansArr`; it touches no
scalar field. -/
def plansBody : JVal :=
  .obj [("plans", .arr plansArr)]

/-- An update body that only retitles the project. -/
def retitleBody : JVal :=
  .obj [("title", .str "new title")]

/-- A plain persistence-layer error (no status attached) as thrown by a
failing save. -/
def errDb : ErrObj := { status := .undefined, message := .str "connection lost" }

/-- A project row whose owner column and loaded user relation disagree: the
`user_id` column holds 2 while the row loaded through the user relation has
id 1 — the edge case in which the update handler's two ownership checks
diverge. -/
def projX : ProjectRec :=
  { proj1 with id := 5, user_id := 2, owner := 1 }

/-- A store containing only the inconsistent row `projX`. -/
def db2 : DB := { db1 with projects := [projX] }

/-- A body for `createProjectPlan` carrying a nested plans object. -/
def onePlanBody : JVal :=
  .obj [("plans", .obj
    [("plan_name", .str "np"), ("amount", .num 120), ("quantity", .num 4),
     ("feedback", .str "fb"), ("feedback_img", .null),
     ("delivery_date", .str "2025-03-01")])]

/-- The 201 response body of `createProjectPlan` for a created plan. -/
def planCreatedResponse (pl : PlanRec) : JVal :=
  .obj [("status", .bool true), ("message", .str "回饋方案建立成功"),
        ("data", planToJson pl)]

theorem JVal.str_ne {a b : String} (h : a ≠ b) : JVal.str a ≠ JVal.str b :=
  fun he => h (JVal.str.inj he)

theorem JVal.num_ne {a b : Int} (h : a ≠ b) : JVal.num a ≠ JVal.num b :=
  fun he => h (JVal.num.inj he)

theorem JVal.eqNum_true_iff {v : JVal} {m : Nat} :
    v.eqNum m = true ↔ v = .num (m : Int) := by
  cases v <;> simp [JVal.eqNum]

theorem JVal.get_eq_undefined_of_hasKey_false {v : JVal} {k : String}
    (h : v.hasKey k = false) : v.get k = .undefined := by
  cases v with
  | obj fs =>
    simp only [JVal.hasKey, List.any_eq_false] at h
    simp only [JVal.get]
    have hl : fs.lookup k = none := by
      induction fs with
      | nil => rfl
      | cons f rest ih =>
        have hf : (f.1 == k) = false := by
          simpa using h f (List.mem_cons_self f rest)
        have hk : (k == f.1) = false := by
          rw [beq_eq_false_iff_ne] at hf ⊢
          exact fun e => hf e.symm
        obtain ⟨a, b⟩ := f
        simp only [List.lookup, hk]
        exact ih (fun x hx => h x (List.mem_cons_of_mem _ hx))
    rw [hl]
  | undefined => rfl
  | null => rfl
  | nan => rfl
  | bool b => rfl
  | num n => rfl
  | str s => rfl
  | arr xs => rfl

/-- C9, counterexample: the claim states the unmatched-route body carries the
message "no such route", but the middleware's literal is 無此路由 — at the
concrete request GET /nope the message field differs from the claimed
string. -/
theorem notFound_message_not_english :
    (notFoundHandler "GET" "/nope").2.get "message" ≠ .str "no such route" :=
  JVal.str_ne (by decide)

/-- C9, amended: every request reaching the unmatched-route middleware
receives — whatever its HTTP method and path — status 404 with a body whose
fields are exactly status = error and message = 無此路由 (the code's literal,
rendered "no such route" in the spec). -/
theorem notFound_uniform (method path method2 path2 : String) :
    (notFoundHandler method path).1 = 404 ∧
    (notFoundHandler method path).2.get "status" = .str "error" ∧
    (notFoundHandler method path).2.get "message" = .str "無此路由" ∧
    (notFoundHandler method path).2.keys = ["status", "message"] ∧
    notFoundHandler method path = notFoundHandler method2 path2 :=
  ⟨rfl, rfl, rfl, rfl, rfl⟩

/-- C8, counterexample: an error whose status property is present but equal
to the number 0 is answered with HTTP status 500, not with its attached
status — the handler tests truthiness, not presence. -/
theorem errorHandler_zero_status :
    ErrObj.status ⟨.num 0, .str "boom"⟩ ≠ .undefined ∧
    (errorHandler (some ⟨.num 0, .str "boom"⟩)).1 = .num 500 ∧
    (errorHandler (some ⟨.num 0, .str "boom"⟩)).1 ≠ ErrObj.status ⟨.num 0, .str "boom"⟩ :=
  ⟨fun h => JVal.noConfusion h, rfl, JVal.num_ne (by decide)⟩

/-- C8, amended: for every error reaching the centralized handler, the HTTP
status is the error's attached status when that value is truthy and 500 when
it is absent or falsy; the envelope's status string is error exactly when the
HTTP status is 500 and failed otherwise; and the message is the error's when
truthy, the default server-error message when absent or falsy. -/
theorem errorHandler_spec (e : ErrObj) :
    (e.status.truthy = true → (errorHandler (some e)).1 = e.status) ∧
    (e.status.truthy = false → (errorHandler (some e)).1 = .num 500) ∧
    ((errorHandler (some e)).2.1 = .str "error" ↔ (errorHandler (some e)).1 = .num 500) ∧
    (e.message.truthy = true → (errorHandler (some e)).2.2 = e.message) ∧
    (e.message.truthy = false → (errorHandler (some e)).2.2 = .str "伺服器錯誤") := by
  refine ⟨fun h => by simp [errorHandler, h], fun h => by simp [errorHandler, h],
          ?_, fun h => by simp [errorHandler, h], fun h => by simp [errorHandler, h]⟩
  by_cases h : e.status.truthy = true
  · simp only [errorHandler, h, if_true]
    by_cases h5 : e.status.eqNum 500 = true
    · have := JVal.eqNum_true_iff.mp h5
      simp [h5, this, JVal.eqNum]
    · have hne : e.status ≠ .num 500 := fun he => h5 (JVal.eqNum_true_iff.mpr (by simpa using he))
      simp only [h5, Bool.false_eq_true, if_false]
      exact ⟨fun he => absurd (JVal.str.inj he) (by decide), fun he => absurd he hne⟩
  · have h0 : e.status.truthy = false := by simpa using h
    simp [errorHandler, h0, JVal.eqNum]

/-- C8, witness: at a concrete 404-tagged error the served status is its
attached 404; at a bare error with neither status nor message the served
status is 500 and the message defaults. -/
theorem errorHandler_spec_witness :
    (errorHandler (some ⟨.num 404, .str "x"⟩)).1 = .num 404 ∧
    (errorHandler (some ⟨.undefined, .undefined⟩)).1 = .num 500 ∧
    (errorHandler (some ⟨.undefined, .undefined⟩)).2.2 = .str "伺服器錯誤" :=
  ⟨(errorHandler_spec ⟨.num 404, .str "x"⟩).1 rfl,
   (errorHandler_spec ⟨.undefined, .undefined⟩).2.1 rfl,
   (errorHandler_spec ⟨.undefined, .undefined⟩).2.2.2.2 rfl⟩

theorem createProject_not400 (db : DB) (body : JVal) (tok : TokenState)
    (h0 : checkMissingProjectFields body = []) (b : JVal) :
    (createProject db body tok).1 ≠ .ok 400 b := by
  unfold createProject
  rw [h0]
  simp only [List.length_nil, gt_iff_lt, Nat.lt_irrefl, if_false]
  cases tok with
  | missing => simp
  | invalid => simp
  | valid uid =>
    cases hu : db.users.find? (fun u => u.id == uid) with
    | none => simp [hu]
    | some user =>
      cases hc : db.categories.find? (fun c => (body.get "category_id").eqNum c.id) with
      | none => simp [hu, hc]
      | some cat => simp [hu, hc]

/-- C4, counterexample: with all ten required keys present in the body but
total_amount equal to the number 0 (a falsy value), createProject still
answers the missing-fields 400 and its message lists total_amount — so the
400 response is not equivalent to a field being absent, and the check is
sensitive to values, not only to presence. -/
theorem createProject_zero_total_counterexample :
    requiredFields.all (fun f => bodyAllPresentZero.hasKey f) = true ∧
    checkMissingProjectFields bodyAllPresentZero = ["total_amount"] ∧
    (createProject db1 bodyAllPresentZero (.valid 1)).1 =
      .ok 400 (missingFieldsResponse bodyAllPresentZero) :=
  ⟨rfl, rfl, rfl⟩

/-- C4, amended: createProject answers the missing-fields 400 response — its
message listing exactly those required fields whose body value is falsy, in
declaration order — if and only if at least one of the ten required fields is
falsy in the body (absent, undefined, null, false, 0 or the empty string);
the check tests truthiness of each field's value, not mere key presence. -/
theorem createProject_missing_iff (db : DB) (body : JVal) (tok : TokenState) :
    (((createProject db body tok).1 = .ok 400 (missingFieldsResponse body)) ↔
      ∃ f ∈ requiredFields, (body.get f).truthy = false) ∧
    (missingFieldsResponse body).get "message" =
      .str ("缺少必要欄位: " ++ String.intercalate ", "
        (requiredFields.filter (fun f => !(body.get f).truthy))) := by
  refine ⟨⟨?_, ?_⟩, rfl⟩
  · intro h
    by_contra hne
    push_neg at hne
    have hempty : checkMissingProjectFields body = [] := by
      apply List.filter_eq_nil_iff.mpr
      intro f hf
      simp [hne f hf]
    exact createProject_not400 db body tok hempty _ h
  · rintro ⟨f, hf, hfv⟩
    have hne : checkMissingProjectFields body ≠ [] := by
      intro he
      have := List.filter_eq_nil_iff.mp he f hf
      simp [hfv] at this
    unfold createProject
    rw [if_pos (by simpa [gt_iff_lt, List.length_pos] using hne)]

/-- C4, witness for the amended theorem: a body missing the cover key (all
other fields truthy) is answered with the 400 whose message lists exactly
cover. -/
theorem createProject_missing_iff_witness :
    (createProject db1
      (.obj [("title", .str "t"), ("summary", .str "s"), ("category_id", .num 3),
             ("total_amount", .num 9), ("start_time", .str "a"),
             ("end_time", .str "b"), ("full_content", .str "d"),
             ("project_team", .str "e"), ("faq", .str "f")]) (.valid 1)).1 =
      .ok 400 (missingFieldsResponse
        (.obj [("title", .str "t"), ("summary", .str "s"), ("category_id", .num 3),
               ("total_amount", .num 9), ("start_time", .str "a"),
               ("end_time", .str "b"), ("full_content", .str "d"),
               ("project_team", .str "e"), ("faq", .str "f")])) :=
  (createProject_missing_iff db1 _ (.valid 1)).1.mpr ⟨"cover", by decide, rfl⟩

/-- C1, counterexample: user 2 is authenticated but is not the recorded owner
of project 1, yet the update request is answered with status 400 — the lookup
filter, which already constrains by the owner column, finds nothing — and not
with the claimed 403.  The store is unchanged. -/
theorem updateProject_nonOwner_counterexample :
    db1.projects.all (fun p => p.owner != 2) = true ∧
    (serve (updateProject db1 2 "1" (.obj []) none).1).1 = .num 400 ∧
    (serve (updateProject db1 2 "1" (.obj []) none).1).1 ≠ .num 403 ∧
    (updateProject db1 2 "1" (.obj []) none).2 = db1 :=
  ⟨rfl, rfl, JVal.num_ne (by decide), rfl⟩

/-- C1, amended: an update request by an authenticated user who is not the
recorded owner of the addressed project is rejected without modifying the
store, by case: status 400 (找不到提案) exactly when the id-and-owner-column
lookup finds no row — the typical non-owner case, since the filter already
constrains by owner — and status 403 (the permission error) exactly when the
filter's owner column matches the requester but the owner loaded through the
user relation differs. -/
theorem updateProject_nonOwner_rejected (db : DB) (uid : Nat) (pidStr : String)
    (body : JVal) (err : Option ErrObj) :
    (findProjectByIdAndUser db (parseIntJs pidStr) uid = none →
      (updateProject db uid pidStr body err).2 = db ∧
      (updateProject db uid pidStr body err).1 =
        .fail (appError 400 (.str "找不到提案")) ∧
      (serve (updateProject db uid pidStr body err).1).1 = .num 400) ∧
    (∀ project, findProjectByIdAndUser db (parseIntJs pidStr) uid = some project →
      project.owner ≠ uid →
      (updateProject db uid pidStr body err).2 = db ∧
      (updateProject db uid pidStr body err).1 =
        .fail (appError 403 (.str "你沒有修改此提案的權限")) ∧
      (serve (updateProject db uid pidStr body err).1).1 = .num 403) := by
  constructor
  · intro hf
    simp only [updateProject, hf]
    refine ⟨?_, ?_, ?_⟩ <;> trivial
  · intro project hf hown
    have hb : (project.owner != uid) = true := by simpa using hown
    simp only [updateProject, hf, hb, if_true]
    refine ⟨?_, ?_, ?_⟩ <;> trivial

/-- C1, witness exercising both rejection branches concretely: user 2's
request for project 1 of `db1` (owner column 1) fails the lookup and is
served 400; user 2's request for project 5 of `db2` (owner column 2 but
relation owner 1 — the diverging-checks edge case) is served 403; neither
request modifies the store. -/
theorem updateProject_nonOwner_rejected_witness :
    ((updateProject db1 2 "1" retitleBody none).2 = db1 ∧
     (updateProject db1 2 "1" retitleBody none).1 =
       .fail (appError 400 (.str "找不到提案")) ∧
     (serve (updateProject db1 2 "1" retitleBody none).1).1 = .num 400) ∧
    ((updateProject db2 2 "5" retitleBody none).2 = db2 ∧
     (updateProject db2 2 "5" retitleBody none).1 =
       .fail (appError 403 (.str "你沒有修改此提案的權限")) ∧
     (serve (updateProject db2 2 "5" retitleBody none).1).1 = .num 403) :=
  ⟨(updateProject_nonOwner_rejected db1 2 "1" retitleBody none).1 rfl,
   (updateProject_nonOwner_rejected db2 2 "5" retitleBody none).2 projX rfl (by decide)⟩

/-- C5: the plan full-replace of updateProject is not atomic.  In the
execution where the owner of project 1 replaces its plans and the insert of
the new rows throws (the delete having already succeeded), the request fails
— served with status 500, the raw persistence error carrying no status — and
the project is left with zero plans although it had some before. -/
theorem updateProject_replace_not_atomic :
    plansOf db1 1 ≠ [] ∧
    plansOf (updateProject db1 1 "1" plansBody (some errDb)).2 1 = [] ∧
    (updateProject db1 1 "1" plansBody (some errDb)).1 = .fail errDb ∧
    (serve (updateProject db1 1 "1" plansBody (some errDb)).1).1 = .num 500 :=
  ⟨fun h => List.cons_ne_nil _ _ h, rfl, rfl, rfl⟩

theorem mem_saveProject_scalarUpdate {l : List ProjectRec}
    {project p2 : ProjectRec} (body : JVal) (hmem : project ∈ l)
    (h : p2 ∈ l.map (fun q =>
      if q.id == (scalarUpdate project body).id then scalarUpdate project body else q)) :
    ∃ p ∈ l, p.id = p2.id ∧ p.category = p2.category := by
  rcases List.mem_map.mp h with ⟨q, hq, hEq⟩
  by_cases hid : (q.id == (scalarUpdate project body).id) = true
  · rw [if_pos hid] at hEq
    refine ⟨project, hmem, ?_, ?_⟩
    · rw [← hEq]; rfl
    · rw [← hEq]; rfl
  · rw [if_neg hid] at hEq
    exact ⟨q, hq, hEq ▸ rfl, hEq ▸ rfl⟩

/-- C10: updateProject never changes a project's category — after any update
request, every project row in the store has the same category reference as
the row with its id held before the request, whether or not the body carried
a category_id (the handler destructures category_id but never assigns it). -/
theorem updateProject_preserves_category (db : DB) (uid : Nat) (pidStr : String)
    (body : JVal) (err : Option ErrObj) (p2 : ProjectRec)
    (h : p2 ∈ (updateProject db uid pidStr body err).2.projects) :
    ∃ p ∈ db.projects, p.id = p2.id ∧ p.category = p2.category := by
  simp only [updateProject] at h
  cases hf : findProjectByIdAndUser db (parseIntJs pidStr) uid with
  | none =>
    rw [hf] at h
    exact ⟨p2, h, rfl, rfl⟩
  | some project =>
    rw [hf] at h
    have hmem : project ∈ db.projects := List.mem_of_find?_eq_some hf
    cases hb : (project.owner != uid) with
    | true =>
      simp only [hb, if_true] at h
      exact ⟨p2, h, rfl, rfl⟩
    | false =>
      simp only [hb, Bool.false_eq_true, if_false] at h
      cases hp : body.get "plans" with
      | arr ps =>
        rw [hp] at h
        cases err with
        | some e => exact ⟨p2, h, rfl, rfl⟩
        | none => exact mem_saveProject_scalarUpdate body hmem h
      | undefined => rw [hp] at h; exact mem_saveProject_scalarUpdate body hmem h
      | null => rw [hp] at h; exact mem_saveProject_scalarUpdate body hmem h
      | nan => rw [hp] at h; exact mem_saveProject_scalarUpdate body hmem h
      | bool b => rw [hp] at h; exact mem_saveProject_scalarUpdate body hmem h
      | num n => rw [hp] at h; exact mem_saveProject_scalarUpdate body hmem h
      | str s => rw [hp] at h; exact mem_saveProject_scalarUpdate body hmem h
      | obj fs => rw [hp] at h; exact mem_saveProject_scalarUpdate body hmem h

/-- C10, witness: after the owner retitles project 1, the resulting project
row still references the category of the original row with its id. -/
theorem updateProject_preserves_category_witness :
    ∃ p ∈ db1.projects,
      p.id = (scalarUpdate proj1 retitleBody).id ∧
      p.category = (scalarUpdate proj1 retitleBody).category :=
  updateProject_preserves_category db1 1 "1" retitleBody none
    (scalarUpdate proj1 retitleBody) (List.mem_singleton.mpr rfl)

/-- C7, counterexample: with a body that carries no nested plans object, a
request naming the nonexistent project 9 is not answered 404 — the handler
destructures req.body.plans before checking existence, the destructuring
throws, and the request is served 500.  No plan is inserted. -/
theorem createProjectPlan_no_plans_counterexample :
    findProjectById db1 (parseIntJs "9") = none ∧
    (serve (createProjectPlan db1 "9" (.obj [])).1).1 = .num 500 ∧
    (serve (createProjectPlan db1 "9" (.obj [])).1).1 ≠ .num 404 ∧
    (createProjectPlan db1 "9" (.obj [])).2 = db1 :=
  ⟨rfl, rfl, JVal.num_ne (by decide), rfl⟩

/-- C7, amended: when the request body carries a plans object,
createProjectPlan returns 404 and inserts nothing if the referenced project
does not exist, and otherwise inserts exactly one plan row linked to that
project and returns 201 with the created plan; when the plans value is absent
or null the handler fails with a forwarded 500 before the existence check and
inserts nothing.  In every case, each plan row in the resulting store either
existed before or references an existing project — no plan is created without
a parent project. -/
theorem createProjectPlan_spec (db : DB) (idStr : String) (body : JVal) :
    ((body.get "plans").isNullish = true →
      createProjectPlan db idStr body = (.fail (appError 500 destructureTypeError), db)) ∧
    ((body.get "plans").isNullish = false →
      findProjectById db (parseIntJs idStr) = none →
      createProjectPlan db idStr body =
        (.ok 404 (.obj [("status", .bool false), ("message", .str "找不到專案")]), db)) ∧
    (∀ project, (body.get "plans").isNullish = false →
      findProjectById db (parseIntJs idStr) = some project →
      ∃ pl : PlanRec,
        (createProjectPlan db idStr body).1 = .ok 201 (planCreatedResponse pl) ∧
        (createProjectPlan db idStr body).2.plans = db.plans ++ [pl] ∧
        pl.project_id = project.id ∧ project ∈ db.projects) ∧
    (∀ pl2 ∈ (createProjectPlan db idStr body).2.plans,
      pl2 ∈ db.plans ∨ ∃ project ∈ db.projects, pl2.project_id = project.id) := by
  refine ⟨?_, ?_, ?_, ?_⟩
  · intro hn
    simp only [createProjectPlan, hn, if_true]
  · intro hn hf
    simp only [createProjectPlan, hn, Bool.false_eq_true, if_false, hf]
  · intro project hn hf
    refine ⟨{ plan_id := db.nextPlanId
              project_id := project.id
              plan_name := (body.get "plans").get "plan_name"
              amount := (body.get "plans").get "amount"
              quantity := (body.get "plans").get "quantity"
              feedback := (body.get "plans").get "feedback"
              feedback_img := (body.get "plans").get "feedback_img"
              delivery_date := (body.get "plans").get "delivery_date" },
            ?_, ?_, rfl, List.mem_of_find?_eq_some hf⟩
    · simp only [createProjectPlan, hn, Bool.false_eq_true, if_false, hf]
      rfl
    · simp only [createProjectPlan, hn, Bool.false_eq_true, if_false, hf]
  · intro pl2 h2
    cases hn : (body.get "plans").isNullish with
    | true =>
      simp only [createProjectPlan, hn, if_true] at h2
      exact Or.inl h2
    | false =>
      simp only [createProjectPlan, hn, Bool.false_eq_true, if_false] at h2
      cases hf : findProjectById db (parseIntJs idStr) with
      | none =>
        rw [hf] at h2
        exact Or.inl h2
      | some project =>
        rw [hf] at h2
        rcases List.mem_append.mp h2 with hA | hB
        · exact Or.inl hA
        · have hEq := List.mem_singleton.mp hB
          exact Or.inr ⟨project, List.mem_of_find?_eq_some hf, by rw [hEq]⟩

/-- C7, witness for the amended theorem at concrete requests: a body without
a plans object fails with the forwarded 500; with a plans object, project 9
yields 404 and project 1 yields 201 with exactly one appended linked plan. -/
theorem createProjectPlan_spec_witness :
    createProjectPlan db1 "1" (.obj []) = (.fail (appError 500 destructureTypeError), db1) ∧
    createProjectPlan db1 "9" onePlanBody =
      (.ok 404 (.obj [("status", .bool false), ("message", .str "找不到專案")]), db1) ∧
    ∃ pl : PlanRec,
      (createProjectPlan db1 "1" onePlanBody).1 = .ok 201 (planCreatedResponse pl) ∧
      (createProjectPlan db1 "1" onePlanBody).2.plans = db1.plans ++ [pl] ∧
      pl.project_id = proj1.id ∧ proj1 ∈ db1.projects :=
  ⟨(createProjectPlan_spec db1 "1" (.obj [])).1 rfl,
   (createProjectPlan_spec db1 "9" onePlanBody).2.1 rfl rfl,
   (createProjectPlan_spec db1 "1" onePlanBody).2.2.1 proj1 rfl rfl⟩

theorem buildPlans_length (proj : ProjectRec) (ps : List JVal) (n : Nat) :
    (buildPlans proj ps n).length = ps.length := by
  induction ps generalizing n with
  | nil => rfl
  | cons pv rest ih => simp [buildPlans, ih]

theorem buildPlans_project_id (proj : ProjectRec) (ps : List JVal) (n : Nat) :
    ∀ pl ∈ buildPlans proj ps n, pl.project_id = proj.id := by
  induction ps generalizing n with
  | nil => intro pl h; cases h
  | cons pv rest ih =>
    intro pl h
    rcases List.mem_cons.mp h with rfl | h2
    · rfl
    · exact ih (n + 1) pl h2

theorem buildPlans_map_amount (proj : ProjectRec) (ps : List JVal) (n : Nat) :
    (buildPlans proj ps n).map (fun pl => pl.amount) =
      ps.map (fun pv => toNumber (pv.get "amount")) := by
  induction ps generalizing n with
  | nil => rfl
  | cons pv rest ih => simp only [buildPlans, List.map_cons, ih]; rfl

theorem buildPlans_map_quantity (proj : ProjectRec) (ps : List JVal) (n : Nat) :
    (buildPlans proj ps n).map (fun pl => pl.quantity) =
      ps.map (fun pv =>
        if (pv.get "quantity").truthy then toNumber (pv.get "quantity") else .num 0) := by
  induction ps generalizing n with
  | nil => rfl
  | cons pv rest ih => simp only [buildPlans, List.map_cons, ih]; rfl

theorem buildPlans_map_project_id (proj : ProjectRec) (ps : List JVal) (n : Nat) :
    (buildPlans proj ps n).map (fun pl => pl.project_id) =
      ps.map (fun _ => proj.id) := by
  induction ps generalizing n with
  | nil => rfl
  | cons pv rest ih => simp only [buildPlans, List.map_cons, ih]; rfl

theorem buildPlans_filter_self (proj : ProjectRec) (ps : List JVal) (n : Nat) :
    (buildPlans proj ps n).filter (fun pl => pl.project_id == proj.id) =
      buildPlans proj ps n :=
  List.filter_eq_self.mpr (fun pl h => by
    rw [buildPlans_project_id proj ps n pl h]
    exact beq_self_eq_true proj.id)

theorem kept_filter_nil (l : List PlanRec) (pid : Option Int) (projid : Nat)
    (h : (pid == some (projid : Int)) = true) :
    ((l.filter (fun pl => !(pid == some (pl.project_id : Int)))).filter
      (fun pl => pl.project_id == projid)) = [] := by
  rw [List.filter_filter]
  apply List.filter_eq_nil_iff.mpr
  intro pl hpl hc
  rw [Bool.and_eq_true] at hc
  obtain ⟨hq, hkeep⟩ := hc
  have hpid : pl.project_id = projid := by simpa using hq
  rw [hpid, h] at hkeep
  simp at hkeep

/-- C2: when the owner's update request carries a plans array and the insert
succeeds, every existing plan row of the project is deleted and the project's
plans afterwards are exactly one new row per element of the array, in order —
each row linked to the project, its amount coerced with Number, and its
quantity coerced with Number when truthy and defaulted to 0 when falsy. -/
theorem updateProject_replaces_plans (db : DB) (uid : Nat) (pidStr : String)
    (body : JVal) (project : ProjectRec) (ps : List JVal)
    (hf : findProjectByIdAndUser db (parseIntJs pidStr) uid = some project)
    (how : project.owner = uid)
    (hp : body.get "plans" = .arr ps) :
    plansOf (updateProject db uid pidStr body none).2 project.id =
      buildPlans project ps db.nextPlanId ∧
    (buildPlans project ps db.nextPlanId).length = ps.length ∧
    (buildPlans project ps db.nextPlanId).map (fun pl => pl.amount) =
      ps.map (fun pv => toNumber (pv.get "amount")) ∧
    (buildPlans project ps db.nextPlanId).map (fun pl => pl.quantity) =
      ps.map (fun pv =>
        if (pv.get "quantity").truthy then toNumber (pv.get "quantity") else .num 0) ∧
    (buildPlans project ps db.nextPlanId).map (fun pl => pl.project_id) =
      ps.map (fun _ => project.id) := by
  refine ⟨?_, buildPlans_length project ps db.nextPlanId,
          buildPlans_map_amount project ps db.nextPlanId,
          buildPlans_map_quantity project ps db.nextPlanId,
          buildPlans_map_project_id project ps db.nextPlanId⟩
  have hid : (parseIntJs pidStr == some (project.id : Int)) = true := by
    have hpred := List.find?_some hf
    simp only [findProjectByIdAndUser] at hf
    simp only [Bool.and_eq_true] at hpred
    exact hpred.1
  have hb : (project.owner != uid) = false := by simp [how]
  simp only [updateProject, hf, hb, Bool.false_eq_true, if_false, hp]
  simp only [plansOf, saveProject, List.filter_append]
  rw [kept_filter_nil _ _ _ hid]
  rw [buildPlans_filter_self]
  simp

/-- C2, witness: the owner of project 1 replaces its two stored plans with
the two-element array `plansArr`; afterwards the project's plans are exactly
the two built rows, whose amounts are Number("500") and Number(80) and whose
quantities are 3 and the default 0 (the second element omits quantity). -/
theorem updateProject_replaces_plans_witness :
    plansOf (updateProject db1 1 "1" plansBody none).2 proj1.id =
      buildPlans proj1 plansArr db1.nextPlanId ∧
    (buildPlans proj1 plansArr db1.nextPlanId).length = plansArr.length ∧
    (buildPlans proj1 plansArr db1.nextPlanId).map (fun pl => pl.amount) =
      plansArr.map (fun pv => toNumber (pv.get "amount")) ∧
    (buildPlans proj1 plansArr db1.nextPlanId).map (fun pl => pl.quantity) =
      plansArr.map (fun pv =>
        if (pv.get "quantity").truthy then toNumber (pv.get "quantity") else .num 0) ∧
    (buildPlans proj1 plansArr db1.nextPlanId).map (fun pl => pl.project_id) =
      plansArr.map (fun _ => proj1.id) :=
  updateProject_replaces_plans db1 1 "1" plansBody proj1 plansArr rfl rfl rfl

/-- C3: on an owner's update request the stored projects afterwards are the
stored projects before with only the addressed row rewritten to its updated
version, and that updated version keeps the prior value of every scalar field
whose key is absent from the body (title, summary, total_amount, start_time,
end_time, cover, full_content, project_team, faq); total_amount, when present
with a defined value, is stored as Number of that value. -/
theorem updateProject_partial_fields (db : DB) (uid : Nat) (pidStr : String)
    (body : JVal) (project : ProjectRec)
    (hf : findProjectByIdAndUser db (parseIntJs pidStr) uid = some project)
    (how : project.owner = uid) :
    ((updateProject db uid pidStr body none).2.projects =
      db.projects.map (fun q =>
        if q.id == project.id then scalarUpdate project body else q)) ∧
    (body.hasKey "title" = false →
      (scalarUpdate project body).title = project.title) ∧
    (body.hasKey "summary" = false →
      (scalarUpdate project body).summary = project.summary) ∧
    (body.hasKey "total_amount" = false →
      (scalarUpdate project body).total_amount = project.total_amount) ∧
    (body.hasKey "start_time" = false →
      (scalarUpdate project body).start_time = project.start_time) ∧
    (body.hasKey "end_time" = false →
      (scalarUpdate project body).end_time = project.end_time) ∧
    (body.hasKey "cover" = false →
      (scalarUpdate project body).cover = project.cover) ∧
    (body.hasKey "full_content" = false →
      (scalarUpdate project body).full_content = project.full_content) ∧
    (body.hasKey "project_team" = false →
      (scalarUpdate project body).project_team = project.project_team) ∧
    (body.hasKey "faq" = false →
      (scalarUpdate project body).faq = project.faq) ∧
    ((body.get "total_amount").isUndefined = false →
      (scalarUpdate project body).total_amount = toNumber (body.get "total_amount")) := by
  have hb : (project.owner != uid) = false := by simp [how]
  refine ⟨?_, ?_, ?_, ?_, ?_, ?_, ?_, ?_, ?_, ?_, ?_⟩
  · simp only [updateProject, hf, hb, Bool.false_eq_true, if_false]
    cases hp : body.get "plans" with
    | arr ps => rfl
    | undefined => rfl
    | null => rfl
    | nan => rfl
    | bool b => rfl
    | num n => rfl
    | str s => rfl
    | obj fs => rfl
  · intro h
    simp [scalarUpdate, JVal.get_eq_undefined_of_hasKey_false h, JVal.isUndefined]
  · intro h
    simp [scalarUpdate, JVal.get_eq_undefined_of_hasKey_false h, JVal.isUndefined]
  · intro h
    simp [scalarUpdate, JVal.get_eq_undefined_of_hasKey_false h, JVal.isUndefined]
  · intro h
    simp [scalarUpdate, JVal.get_eq_undefined_of_hasKey_false h, JVal.isUndefined]
  · intro h
    simp [scalarUpdate, JVal.get_eq_undefined_of_hasKey_false h, JVal.isUndefined]
  · intro h
    simp [scalarUpdate, JVal.get_eq_undefined_of_hasKey_false h, JVal.isUndefined]
  · intro h
    simp [scalarUpdate, JVal.get_eq_undefined_of_hasKey_false h, JVal.isUndefined]
  · intro h
    simp [scalarUpdate, JVal.get_eq_undefined_of_hasKey_false h, JVal.isUndefined]
  · intro h
    simp [scalarUpdate, JVal.get_eq_undefined_of_hasKey_false h, JVal.isUndefined]
  · intro h
    simp [scalarUpdate, h]

/-- C3, witness: retitling project 1 leaves every other scalar field of the
updated row at its prior value, and a body carrying total_amount as the
string "500" stores Number("500"). -/
theorem updateProject_partial_fields_witness :
    ((updateProject db1 1 "1" retitleBody none).2.projects =
      db1.projects.map (fun q =>
        if q.id == proj1.id then scalarUpdate proj1 retitleBody else q)) ∧
    (scalarUpdate proj1 retitleBody).summary = proj1.summary ∧
    (scalarUpdate proj1 retitleBody).faq = proj1.faq ∧
    (scalarUpdate proj1 (.obj [("total_amount", .str "500")])).total_amount =
      toNumber (.str "500") :=
  ⟨(updateProject_partial_fields db1 1 "1" retitleBody proj1 rfl rfl).1,
   (updateProject_partial_fields db1 1 "1" retitleBody proj1 rfl rfl).2.2.1 rfl,
   (updateProject_partial_fields db1 1 "1" retitleBody proj1 rfl rfl).2.2.2.2.2.2.2.2.2.1 rfl,
   (updateProject_partial_fields db1 1 "1" (.obj [("total_amount", .str "500")])
     proj1 rfl rfl).2.2.2.2.2.2.2.2.2.2 rfl⟩

theorem JVal.eq_undefined_of_isUndefined {v : JVal} (h : v.isUndefined = true) : v = .undefined := by
  cases v <;> simp [JVal.isUndefined] at h ⊢

/-- C6: getProject answers 404 for a nonexistent project id; for an existing
one it answers 200 with the project view whose plans are a permutation of the
project's stored plans sorted ascending by plan id, each shaped to exactly
the six display fields (no plan identifier), and whose faq field is the empty
array when no faq was stored. -/
theorem getProject_spec (db : DB) (pidStr : String) :
    (findProjectById db (parseIntJs pidStr) = none →
      getProject db pidStr = .fail (appError 404 (.str "無此專案")) ∧
      (serve (getProject db pidStr)).1 = .num 404) ∧
    (∀ project, findProjectById db (parseIntJs pidStr) = some project →
      ∃ sorted : List PlanRec,
        getProject db pidStr =
          .ok 200 (.obj [("status", .bool true), ("data", projectView project sorted)]) ∧
        List.Perm sorted (plansOf db project.id) ∧
        List.Sorted planLe sorted ∧
        (projectView project sorted).get "plans" = .arr (sorted.map shapePlan) ∧
        (∀ pl : PlanRec, (shapePlan pl).keys =
          ["plan_name", "amount", "quantity", "feedback", "feedback_img",
           "delivery_date"]) ∧
        (project.faq.isUndefined = true →
          (projectView project sorted).get "faq" = .arr [])) := by
  constructor
  · intro hf
    constructor
    · simp only [getProject, hf]
    · simp only [getProject, hf]
      rfl
  · intro project hf
    refine ⟨List.insertionSort planLe (plansOf db project.id), ?_,
            List.perm_insertionSort planLe _,
            List.sorted_insertionSort planLe _, rfl, fun pl => rfl, ?_⟩
    · simp only [getProject, hf]
    · intro hq
      show (if project.faq.truthy then project.faq else JVal.arr []) = JVal.arr []
      rw [JVal.eq_undefined_of_isUndefined hq]
      rfl

/-- C6, witness: project 9 does not exist in the concrete store and is
answered 404; project 1 exists and is answered 200 with its two plans — the
stored order has ids 7 then 3 — in ascending id order, and with faq the empty
array since none was stored. -/
theorem getProject_spec_witness :
    (getProject db1 "9" = .fail (appError 404 (.str "無此專案")) ∧
     (serve (getProject db1 "9")).1 = .num 404) ∧
    ∃ sorted : List PlanRec,
      getProject db1 "1" =
        .ok 200 (.obj [("status", .bool true), ("data", projectView proj1 sorted)]) ∧
      List.Perm sorted (plansOf db1 proj1.id) ∧
      List.Sorted planLe sorted ∧
      (projectView proj1 sorted).get "plans" = .arr (sorted.map shapePlan) ∧
      (∀ pl : PlanRec, (shapePlan pl).keys =
        ["plan_name", "amount", "quantity", "feedback", "feedback_img",
         "delivery_date"]) ∧
      (proj1.faq.isUndefined = true →
        (projectView proj1 sorted).get "faq" = .arr []) :=
  ⟨(getProject_spec db1 "9").1 rfl, (getProject_spec db1 "1").2 proj1 rfl⟩

end Lovia
